import Mathlib

/-
Shallow embedding of the tool-dispatch layer of the repository:

* `src/server/actions/orchestrator.ts` — `getToolsFromOrchestrator`, the
  tool-selection orchestrator.  The external classification call
  (`generateObject`) is modelled by taking its two outputs — the raw
  candidate tool list and the usage record — as inputs of the embedded
  function; everything after that call is deterministic and embedded
  faithfully.
* `src/ai/generic/telegram.tsx` — the `execute` operations of the
  presentation tools (`verifyTelegramSetup`, `sendTelegramNotification`,
  `analyzeBundles`).  External service calls are modelled by an
  `Except`-valued oracle input: `Except.error e` is the call throwing the
  JavaScript exception `e`, `Except.ok v` is the call resolving to `v`.
-/

/-- JavaScript truthiness of a `string | undefined` value: `undefined` and
the empty string are falsy, every other string is truthy.  This models the
condition `confirmationResultMessage ? … : …` and the guards
`!username`, `username || …` in the source. -/
def jsTruthy : Option String → Bool
  | none => false
  | some s => s != ""

/-- Structural model of `[...new Set(list)]` (JavaScript `Set` iteration is
in insertion order): `dedupAux l seen` keeps the first occurrence of every
element of `l` that is not already in `seen`, in order. -/
def dedupAux : List String → List String → List String
  | [], _ => []
  | x :: xs, seen =>
      if x ∈ seen then dedupAux xs seen else x :: dedupAux xs (x :: seen)

/-- First-occurrence deduplication of a list, the behaviour of
`[...new Set(list)]` in the source. -/
def insertionDedup (l : List String) : List String := dedupAux l []

/-- The deterministic baseline (`confirmationTools` in the source):
`['searchToken']` when the confirmation signal is truthy, otherwise
`['searchToken', 'askForConfirmation']`. -/
def confirmationTools (confirmationResultMessage : Option String) : List String :=
  if jsTruthy confirmationResultMessage then ["searchToken"]
  else ["searchToken", "askForConfirmation"]

/-- The augmentation step of the non-empty branch of the source
(`new Set([...confirmationTools, ...toolsRequired])`, spread back into an
array): baseline first, then the candidates, first occurrences kept. -/
def augmentTools (confirmationResultMessage : Option String)
    (toolsRequired : List String) : List String :=
  insertionDedup (confirmationTools confirmationResultMessage ++ toolsRequired)

/-- Usage accounting record of the classification call
(`LanguageModelUsage` of the `ai` package). -/
structure LanguageModelUsage where
  promptTokens : Nat
  completionTokens : Nat
  totalTokens : Nat
  deriving DecidableEq, Repr

/-- Return value of `getToolsFromOrchestrator`:
`{ usage; toolsRequired: string[] | undefined }`, with `undefined`
modelled as `none`. -/
structure OrchestratorResult where
  usage : LanguageModelUsage
  toolsRequired : Option (List String)
  deriving DecidableEq, Repr

/-- The deterministic part of `getToolsFromOrchestrator`
(src/server/actions/orchestrator.ts, lines 27–38).  The classifier output
`toolsRequired` and the usage record `usage` — the two results of the
`generateObject` call — are inputs; the embedded body is the
post-processing that follows the call in the source. -/
def getToolsFromOrchestrator (toolsRequired : List String)
    (usage : LanguageModelUsage)
    (confirmationResultMessage : Option String) : OrchestratorResult :=
  if toolsRequired.length = 0 then
    ⟨usage, none⟩
  else
    ⟨usage, some (augmentTools confirmationResultMessage toolsRequired)⟩

theorem mem_dedupAux {a : String} :
    ∀ (l seen : List String), a ∈ dedupAux l seen ↔ a ∈ l ∧ a ∉ seen
  | [], seen => by simp [dedupAux]
  | x :: xs, seen => by
    by_cases hx : x ∈ seen
    · rw [dedupAux, if_pos hx, mem_dedupAux xs seen]
      constructor
      · rintro ⟨h1, h2⟩
        exact ⟨List.mem_cons_of_mem x h1, h2⟩
      · rintro ⟨h1, h2⟩
        rcases List.mem_cons.mp h1 with h | h
        · exact absurd (h ▸ hx) h2
        · exact ⟨h, h2⟩
    · rw [dedupAux, if_neg hx, List.mem_cons, mem_dedupAux xs (x :: seen)]
      constructor
      · rintro (rfl | ⟨h1, h2⟩)
        · exact ⟨List.mem_cons_self a xs, hx⟩
        · exact ⟨List.mem_cons_of_mem x h1,
            fun h => h2 (List.mem_cons_of_mem x h)⟩
      · rintro ⟨h1, h2⟩
        rcases List.mem_cons.mp h1 with h | h
        · exact Or.inl h
        · by_cases hax : a = x
          · exact Or.inl hax
          · exact Or.inr ⟨h, fun hm => by
              rcases List.mem_cons.mp hm with h3 | h3
              · exact hax h3
              · exact h2 h3⟩

theorem nodup_dedupAux : ∀ (l seen : List String), (dedupAux l seen).Nodup
  | [], _ => by simp [dedupAux]
  | x :: xs, seen => by
    by_cases hx : x ∈ seen
    · rw [dedupAux, if_pos hx]
      exact nodup_dedupAux xs seen
    · rw [dedupAux, if_neg hx]
      refine List.nodup_cons.mpr ⟨fun hmem => ?_, nodup_dedupAux xs (x :: seen)⟩
      exact ((mem_dedupAux xs (x :: seen)).mp hmem).2 (List.mem_cons_self x seen)

theorem dedupAux_congr_seen :
    ∀ (l seen₁ seen₂ : List String), (∀ a, a ∈ seen₁ ↔ a ∈ seen₂) →
      dedupAux l seen₁ = dedupAux l seen₂
  | [], _, _, _ => rfl
  | x :: xs, seen₁, seen₂, h => by
    by_cases hx : x ∈ seen₁
    · rw [dedupAux, if_pos hx, dedupAux, if_pos ((h x).mp hx)]
      exact dedupAux_congr_seen xs seen₁ seen₂ h
    · rw [dedupAux, if_neg hx, dedupAux, if_neg (fun hm => hx ((h x).mpr hm))]
      refine congrArg (x :: ·) (dedupAux_congr_seen xs (x :: seen₁) (x :: seen₂)
        (fun a => ?_))
      rw [List.mem_cons, List.mem_cons, h a]

theorem dedupAux_append :
    ∀ (l₁ l₂ seen : List String),
      dedupAux (l₁ ++ l₂) seen = dedupAux l₁ seen ++ dedupAux l₂ (l₁ ++ seen)
  | [], l₂, seen => by simp [dedupAux]
  | x :: xs, l₂, seen => by
    by_cases hx : x ∈ seen
    · rw [List.cons_append, dedupAux, if_pos hx, dedupAux, if_pos hx,
        dedupAux_append xs l₂ seen]
      refine congrArg (dedupAux xs seen ++ ·)
        (dedupAux_congr_seen l₂ (xs ++ seen) ((x :: xs) ++ seen) (fun a => ?_))
      simp only [List.cons_append, List.mem_cons, List.mem_append]
      constructor
      · rintro (h | h)
        · exact Or.inr (Or.inl h)
        · exact Or.inr (Or.inr h)
      · rintro (rfl | h | h)
        · exact Or.inr hx
        · exact Or.inl h
        · exact Or.inr h
    · rw [List.cons_append, dedupAux, if_neg hx, dedupAux, if_neg hx,
        dedupAux_append xs l₂ (x :: seen), List.cons_append]
      refine congrArg (x :: ·) (congrArg (dedupAux xs (x :: seen) ++ ·)
        (dedupAux_congr_seen l₂ (xs ++ x :: seen) (x :: (xs ++ seen))
          (fun a => ?_)))
      simp only [List.mem_append, List.mem_cons]
      constructor
      · rintro (h | rfl | h)
        · exact Or.inr (Or.inl h)
        · exact Or.inl rfl
        · exact Or.inr (Or.inr h)
      · rintro (rfl | h | h)
        · exact Or.inr (Or.inl rfl)
        · exact Or.inl h
        · exact Or.inr (Or.inr h)

theorem dedupAux_eq_nil :
    ∀ (l seen : List String), (∀ a ∈ l, a ∈ seen) → dedupAux l seen = []
  | [], _, _ => rfl
  | x :: xs, seen, h => by
    rw [dedupAux, if_pos (h x (List.mem_cons_self x xs))]
    exact dedupAux_eq_nil xs seen (fun a ha => h a (List.mem_cons_of_mem x ha))

theorem dedupAux_eq_self :
    ∀ (l seen : List String), l.Nodup → (∀ a ∈ l, a ∉ seen) →
      dedupAux l seen = l
  | [], _, _, _ => rfl
  | x :: xs, seen, hnd, h => by
    rw [dedupAux, if_neg (h x (List.mem_cons_self x xs))]
    refine congrArg (x :: ·) (dedupAux_eq_self xs (x :: seen)
      (List.nodup_cons.mp hnd).2 (fun a ha hm => ?_))
    rcases List.mem_cons.mp hm with h3 | h3
    · exact (List.nodup_cons.mp hnd).1 (h3 ▸ ha)
    · exact h a (List.mem_cons_of_mem x ha) h3

theorem mem_augmentTools {a : String} (c : Option String) (ts : List String) :
    a ∈ augmentTools c ts ↔ a ∈ confirmationTools c ∨ a ∈ ts := by
  rw [augmentTools, insertionDedup, mem_dedupAux, List.mem_append]
  simp

theorem searchToken_mem_confirmationTools (c : Option String) :
    "searchToken" ∈ confirmationTools c := by
  rw [confirmationTools]
  split <;> simp

theorem askForConfirmation_mem_confirmationTools (c : Option String) :
    "askForConfirmation" ∈ confirmationTools c ↔ jsTruthy c = false := by
  rw [confirmationTools]
  split <;> rename_i h <;> simp_all

/-- Model of a thrown JavaScript value: either an `Error` carrying a
message, or any other thrown value (the `err instanceof Error` test in the
source distinguishes the two). -/
inductive JsException where
  | jsError (message : String)
  | nonError
  deriving DecidableEq, Repr

/-- The message extracted from a caught value in the source:
`err instanceof Error ? err.message : fallback`. -/
def exceptionMessage (e : JsException) (fallback : String) : String :=
  match e with
  | .jsError m => m
  | .nonError => fallback

/-- Constant imported from the notification delivery service
(`@/server/actions/telegram`, outside src/).  Used by the embedding only
as an opaque token; its concrete value never matters to the claims. -/
def MISSING_USERNAME_ERROR : String := "MISSING_USERNAME_ERROR"

/-- Result record of the telegram tool `execute` operations
(`TelegramResult` in the source); absent JavaScript fields are `none`. -/
structure TelegramResult where
  success : Bool
  data : Option String
  error : Option String
  botId : Option String
  noFollowUp : Option Bool
  deriving DecidableEq, Repr

/-- Innermost payload of the `verifyTelegramSetupAction` response
(`response.data.data`); only its `botId` field is read by the source. -/
structure VerifyData where
  botId : Option String
  deriving DecidableEq, Repr

/-- The `response.data` layer of `verifyTelegramSetupAction`. -/
structure VerifyActionData where
  success : Bool
  error : Option String
  data : Option VerifyData
  deriving DecidableEq, Repr

/-- Top layer of the `verifyTelegramSetupAction` response; the source
guards with `response?.data?.data`, so both layers are optional. -/
structure VerifyResponse where
  data : Option VerifyActionData
  deriving DecidableEq, Repr

/-- The `verifyTelegramSetup.execute` operation
(src/ai/generic/telegram.tsx, lines 104–124).  The awaited
`verifyTelegramSetupAction` call is the oracle input `action`:
`Except.error e` models the call throwing `e` (landing in the `catch`
block), `Except.ok r` models it resolving to `r` (`none` is a nullish
response). -/
def verifyTelegramSetupExecute (username : Option String)
    (action : Except JsException (Option VerifyResponse)) : TelegramResult :=
  match action with
  | .error err =>
      ⟨false, none, some (exceptionMessage err "Verification failed"), none, none⟩
  | .ok response =>
      match response with
      | none => ⟨false, none, some "No response from Telegram action", none, none⟩
      | some r =>
        match r.data with
        | none => ⟨false, none, some "No response from Telegram action", none, none⟩
        | some d =>
          match d.data with
          | none => ⟨false, none, some "No response from Telegram action", none, none⟩
          | some dd =>
            if d.success then ⟨true, some "Telegram setup verified", none, none, none⟩
            else ⟨false, none, d.error, dd.botId, none⟩

/-- Result of the `checkTelegramUsername` server action: a record whose
`username` field may be absent (or empty, which the source treats as
falsy). -/
structure UsernameCheckResult where
  username : Option String
  deriving DecidableEq, Repr

/-- Innermost payload of the `sendTelegramNotification` server-action
response (`response.data.data`), destructured by the source into
`{ success, error, botId }`. -/
structure SendData where
  success : Bool
  error : Option String
  botId : Option String
  deriving DecidableEq, Repr

/-- The `response.data` layer of the `sendTelegramNotification` server
action. -/
structure SendActionData where
  data : Option SendData
  deriving DecidableEq, Repr

/-- Top layer of the `sendTelegramNotification` server-action response;
the source guards with `response?.data?.data`. -/
structure SendResponse where
  data : Option SendActionData
  deriving DecidableEq, Repr

/-- The `sendTelegramNotification.execute` operation
(src/ai/generic/telegram.tsx, lines 147–187).  The two awaited external
calls are oracle inputs: `check` for `checkTelegramUsername` and `send`
for the `sendTelegramNotification` server action.  If `check` throws, or
the missing-username guard fires, `send` is never consulted — mirroring
that the second call is never made in the source.  Both calls sit inside
one `try`, so either throwing lands in the same `catch` block. -/
def sendTelegramNotificationExecute (userId : Option String)
    (username : Option String) (message : String)
    (check : Except JsException UsernameCheckResult)
    (send : Except JsException (Option SendResponse)) : TelegramResult :=
  match check with
  | .error err =>
      ⟨false, none, some (exceptionMessage err "Failed to send notification"),
        none, none⟩
  | .ok usernameCheck =>
      if !(jsTruthy username) && !(jsTruthy usernameCheck.username) then
        ⟨false, none, some MISSING_USERNAME_ERROR, none, none⟩
      else
        match send with
        | .error err =>
            ⟨false, none,
              some (exceptionMessage err "Failed to send notification"),
              none, none⟩
        | .ok response =>
            match response with
            | none =>
                ⟨false, none, some "No response from Telegram action", none, none⟩
            | some r =>
              match r.data with
              | none =>
                  ⟨false, none, some "No response from Telegram action", none, none⟩
              | some d =>
                match d.data with
                | none =>
                    ⟨false, none, some "No response from Telegram action", none, none⟩
                | some dd =>
                  if dd.success then
                    ⟨true, some "Notification sent successfully", none,
                      dd.botId, some true⟩
                  else ⟨false, none, dd.error, dd.botId, none⟩

/-- Result record of `analyzeBundles.execute`; `α` is the opaque
`MintBundleAnalysis` payload type (owned by the external bundle analytics
service). -/
structure BundleResult (α : Type) where
  success : Bool
  data : Option α
  error : Option String
  deriving DecidableEq, Repr

/-- The `analyzeBundles.execute` operation (bundle tool part of the
source, lines 217–244).  The awaited `analyzeMintBundles` call is the
oracle input `call`: `Except.error e` models it throwing, `Except.ok
none` a nullish analysis, `Except.ok (some a)` a successful analysis. -/
def analyzeBundlesExecute {α : Type} (mintAddress : String)
    (call : Except JsException (Option α)) : BundleResult α :=
  match call with
  | .error err =>
      ⟨false, none, some (exceptionMessage err "Failed to analyze bundles")⟩
  | .ok none => ⟨false, none, some "Failed to analyze bundles"⟩
  | .ok (some analysis) => ⟨true, some analysis, none⟩

theorem getToolsFromOrchestrator_of_ne_nil (ts : List String)
    (u : LanguageModelUsage) (c : Option String) (h : ts ≠ []) :
    getToolsFromOrchestrator ts u c = ⟨u, some (augmentTools c ts)⟩ := by
  rw [getToolsFromOrchestrator,
    if_neg (fun hl => h (List.length_eq_zero.mp hl))]

/-- C1: for every non-empty candidate array and any confirmation signal,
`getToolsFromOrchestrator` returns a tool set equal (as a set) to the
union of the deterministic baseline and the candidates, and this set is
non-empty and duplicate-free. -/
theorem orchestrator_returns_union (ts : List String) (u : LanguageModelUsage)
    (c : Option String) (h : ts ≠ []) :
    ∃ l, (getToolsFromOrchestrator ts u c).toolsRequired = some l ∧
      l ≠ [] ∧ l.Nodup ∧
      (∀ x, x ∈ l ↔ x ∈ confirmationTools c ∨ x ∈ ts) := by
  rw [getToolsFromOrchestrator_of_ne_nil ts u c h]
  refine ⟨augmentTools c ts, rfl, ?_, nodup_dedupAux _ _,
    fun x => mem_augmentTools c ts⟩
  exact List.ne_nil_of_mem
    ((mem_augmentTools c ts).mpr (Or.inl (searchToken_mem_confirmationTools c)))

theorem orchestrator_returns_union_witness :
    ∃ l, (getToolsFromOrchestrator ["analyzeBundles"] ⟨3, 1, 4⟩
        none).toolsRequired = some l ∧
      l ≠ [] ∧ l.Nodup ∧
      (∀ x, x ∈ l ↔ x ∈ confirmationTools none ∨ x ∈ ["analyzeBundles"]) :=
  orchestrator_returns_union ["analyzeBundles"] ⟨3, 1, 4⟩ none (by decide)

/-- C2: for every empty candidate array, regardless of conversation and
confirmation signal, `getToolsFromOrchestrator` returns the no-tools
marker (`toolsRequired = none`, distinguishable from `some []`) with the
usage record unchanged, and no baseline or augmentation is applied. -/
theorem orchestrator_empty_candidates (u : LanguageModelUsage)
    (c : Option String) : getToolsFromOrchestrator [] u c = ⟨u, none⟩ := rfl

/-- C3: for every non-empty candidate array and a defined non-empty
confirmation signal, the result set contains `searchToken` and contains
`askForConfirmation` only if the classifier proposed it; in particular
candidates `["analyzeBundles"]` with signal `"yes"` yield exactly
`{searchToken, analyzeBundles}`. -/
theorem orchestrator_confirmed_withholds_ask :
    (∀ (ts : List String) (u : LanguageModelUsage) (s : String),
      ts ≠ [] → s ≠ "" →
      ∃ l, (getToolsFromOrchestrator ts u (some s)).toolsRequired = some l ∧
        "searchToken" ∈ l ∧
        ("askForConfirmation" ∈ l → "askForConfirmation" ∈ ts)) ∧
    (∀ u : LanguageModelUsage,
      (getToolsFromOrchestrator ["analyzeBundles"] u (some "yes")).toolsRequired =
        some ["searchToken", "analyzeBundles"]) := by
  constructor
  · intro ts u s hts hs
    rw [getToolsFromOrchestrator_of_ne_nil ts u (some s) hts]
    refine ⟨augmentTools (some s) ts, rfl, ?_, ?_⟩
    · exact (mem_augmentTools _ _).mpr
        (Or.inl (searchToken_mem_confirmationTools _))
    · intro hmem
      rcases (mem_augmentTools _ _).mp hmem with h | h
      · exfalso
        have hf := (askForConfirmation_mem_confirmationTools (some s)).mp h
        simp [jsTruthy] at hf
        exact hs hf
      · exact h
  · intro u
    rfl

theorem orchestrator_confirmed_withholds_ask_witness :
    ∃ l, (getToolsFromOrchestrator ["analyzeBundles"] ⟨2, 7, 9⟩
        (some "yes")).toolsRequired = some l ∧
      "searchToken" ∈ l ∧
      ("askForConfirmation" ∈ l → "askForConfirmation" ∈ ["analyzeBundles"]) :=
  orchestrator_confirmed_withholds_ask.1 ["analyzeBundles"] ⟨2, 7, 9⟩ "yes"
    (by decide) (by decide)

/-- C4: for every non-empty candidate array with the confirmation signal
undefined, the result set is a superset of
`{searchToken, askForConfirmation}`; in particular candidates
`["analyzeBundles"]` yield exactly
`{searchToken, askForConfirmation, analyzeBundles}`. -/
theorem orchestrator_unconfirmed_baseline :
    (∀ (ts : List String) (u : LanguageModelUsage), ts ≠ [] →
      ∃ l, (getToolsFromOrchestrator ts u none).toolsRequired = some l ∧
        "searchToken" ∈ l ∧ "askForConfirmation" ∈ l) ∧
    (∀ u : LanguageModelUsage,
      (getToolsFromOrchestrator ["analyzeBundles"] u none).toolsRequired =
        some ["searchToken", "askForConfirmation", "analyzeBundles"]) := by
  constructor
  · intro ts u hts
    rw [getToolsFromOrchestrator_of_ne_nil ts u none hts]
    refine ⟨augmentTools none ts, rfl, ?_, ?_⟩
    · exact (mem_augmentTools _ _).mpr
        (Or.inl (searchToken_mem_confirmationTools _))
    · exact (mem_augmentTools _ _).mpr
        (Or.inl ((askForConfirmation_mem_confirmationTools none).mpr rfl))
  · intro u
    rfl

theorem orchestrator_unconfirmed_baseline_witness :
    ∃ l, (getToolsFromOrchestrator ["analyzeBundles"] ⟨5, 5, 10⟩
        none).toolsRequired = some l ∧
      "searchToken" ∈ l ∧ "askForConfirmation" ∈ l :=
  orchestrator_unconfirmed_baseline.1 ["analyzeBundles"] ⟨5, 5, 10⟩ (by decide)

/-- C5: whenever `getToolsFromOrchestrator` returns a tool set rather than
the no-tools marker, that set contains no duplicates; in particular
candidates `["searchToken", "searchToken"]` with no confirmation signal
yield exactly `{searchToken, askForConfirmation}` of size two. -/
theorem orchestrator_no_duplicates :
    (∀ (ts : List String) (u : LanguageModelUsage) (c : Option String)
        (l : List String),
      (getToolsFromOrchestrator ts u c).toolsRequired = some l → l.Nodup) ∧
    (∀ u : LanguageModelUsage,
      (getToolsFromOrchestrator ["searchToken", "searchToken"] u
          none).toolsRequired = some ["searchToken", "askForConfirmation"]) := by
  constructor
  · intro ts u c l hl
    cases ts with
    | nil => exact absurd hl (by simp [getToolsFromOrchestrator])
    | cons x xs =>
      rw [getToolsFromOrchestrator_of_ne_nil (x :: xs) u c
        (List.cons_ne_nil x xs)] at hl
      have : l = augmentTools c (x :: xs) := (Option.some_inj.mp hl).symm
      rw [this]
      exact nodup_dedupAux _ _
  · intro u
    rfl

theorem orchestrator_no_duplicates_witness :
    (["searchToken", "askForConfirmation"] : List String).Nodup :=
  orchestrator_no_duplicates.1 ["searchToken", "searchToken"] ⟨0, 0, 0⟩ none
    ["searchToken", "askForConfirmation"] (by decide)

/-- C6: the baseline added by `getToolsFromOrchestrator` depends only on
the confirmation signal, never on the classifier output: for two runs on
any non-empty candidate arrays with the same signal, an identifier outside
both candidate arrays is in the first result iff it is in the baseline,
iff it is in the second result. -/
theorem orchestrator_baseline_noninterference
    (ts₁ ts₂ : List String) (u₁ u₂ : LanguageModelUsage) (c : Option String)
    (x : String) (h₁ : ts₁ ≠ []) (h₂ : ts₂ ≠ []) (hx₁ : x ∉ ts₁)
    (hx₂ : x ∉ ts₂) :
    (x ∈ ((getToolsFromOrchestrator ts₁ u₁ c).toolsRequired.getD []) ↔
      x ∈ confirmationTools c) ∧
    (x ∈ ((getToolsFromOrchestrator ts₁ u₁ c).toolsRequired.getD []) ↔
      x ∈ ((getToolsFromOrchestrator ts₂ u₂ c).toolsRequired.getD [])) := by
  have key : ∀ (ts : List String) (u : LanguageModelUsage), ts ≠ [] → x ∉ ts →
      (x ∈ ((getToolsFromOrchestrator ts u c).toolsRequired.getD []) ↔
        x ∈ confirmationTools c) := by
    intro ts u hts hx
    rw [getToolsFromOrchestrator_of_ne_nil ts u c hts]
    simp only [Option.getD_some]
    rw [mem_augmentTools]
    exact ⟨fun h => h.resolve_right hx, Or.inl⟩
  exact ⟨key ts₁ u₁ h₁ hx₁, (key ts₁ u₁ h₁ hx₁).trans (key ts₂ u₂ h₂ hx₂).symm⟩

theorem orchestrator_baseline_noninterference_witness :
    ("askForConfirmation" ∈
        ((getToolsFromOrchestrator ["analyzeBundles"] ⟨1, 1, 2⟩
          none).toolsRequired.getD []) ↔
      "askForConfirmation" ∈ confirmationTools none) ∧
    ("askForConfirmation" ∈
        ((getToolsFromOrchestrator ["analyzeBundles"] ⟨1, 1, 2⟩
          none).toolsRequired.getD []) ↔
      "askForConfirmation" ∈
        ((getToolsFromOrchestrator ["sendTelegramNotification"] ⟨6, 6, 12⟩
          none).toolsRequired.getD [])) :=
  orchestrator_baseline_noninterference ["analyzeBundles"]
    ["sendTelegramNotification"] ⟨1, 1, 2⟩ ⟨6, 6, 12⟩ none
    "askForConfirmation" (by decide) (by decide) (by decide) (by decide)

/-- C7: the augmentation step (baseline union with candidates, first
occurrences kept) is idempotent: applying it to its own output yields the
very same final list as applying it once. -/
theorem augmentTools_idempotent (c : Option String) (ts : List String) :
    augmentTools c (augmentTools c ts) = augmentTools c ts := by
  unfold augmentTools insertionDedup
  rw [dedupAux_append (confirmationTools c) ts [], List.append_nil]
  rw [dedupAux_append (confirmationTools c) _ [], List.append_nil]
  rw [dedupAux_append (dedupAux (confirmationTools c) [])
    (dedupAux ts (confirmationTools c)) (confirmationTools c)]
  rw [dedupAux_eq_nil (dedupAux (confirmationTools c) []) (confirmationTools c)
    (fun a ha => ((mem_dedupAux _ _).mp ha).1)]
  rw [dedupAux_congr_seen (dedupAux ts (confirmationTools c))
    (dedupAux (confirmationTools c) [] ++ confirmationTools c)
    (confirmationTools c)
    (fun a => by
      rw [List.mem_append, mem_dedupAux]
      exact ⟨fun h => h.elim And.left id, Or.inr⟩)]
  rw [dedupAux_eq_self (dedupAux ts (confirmationTools c)) (confirmationTools c)
    (nodup_dedupAux _ _) (fun a ha => ((mem_dedupAux _ _).mp ha).2)]
  rw [List.nil_append]

/-- C8: in every branch, `getToolsFromOrchestrator` returns the usage
record of the classification call unchanged. -/
theorem orchestrator_preserves_usage (ts : List String)
    (u : LanguageModelUsage) (c : Option String) :
    (getToolsFromOrchestrator ts u c).usage = u := by
  rw [getToolsFromOrchestrator]
  split <;> rfl

/-- C9: an empty-string confirmation signal is treated exactly like an
absent one, because the source tests the string truthily: for every
non-empty candidate array, signal `""` gives the same result as signal
`undefined`, and that result contains the two-element baseline
`{searchToken, askForConfirmation}`. -/
theorem orchestrator_empty_string_signal (ts : List String)
    (u : LanguageModelUsage) (h : ts ≠ []) :
    getToolsFromOrchestrator ts u (some "") =
      getToolsFromOrchestrator ts u none ∧
    ∃ l, (getToolsFromOrchestrator ts u (some "")).toolsRequired = some l ∧
      "searchToken" ∈ l ∧ "askForConfirmation" ∈ l := by
  have hconf : confirmationTools (some "") = confirmationTools none := by decide
  constructor
  · simp only [getToolsFromOrchestrator, augmentTools, hconf]
  · rw [getToolsFromOrchestrator_of_ne_nil ts u (some "") h]
    refine ⟨augmentTools (some "") ts, rfl, ?_, ?_⟩
    · exact (mem_augmentTools _ _).mpr
        (Or.inl (searchToken_mem_confirmationTools _))
    · refine (mem_augmentTools _ _).mpr (Or.inl ?_)
      rw [hconf]
      exact (askForConfirmation_mem_confirmationTools none).mpr rfl

theorem orchestrator_empty_string_signal_witness :
    getToolsFromOrchestrator ["analyzeBundles"] ⟨8, 8, 16⟩ (some "") =
      getToolsFromOrchestrator ["analyzeBundles"] ⟨8, 8, 16⟩ none ∧
    ∃ l, (getToolsFromOrchestrator ["analyzeBundles"] ⟨8, 8, 16⟩
        (some "")).toolsRequired = some l ∧
      "searchToken" ∈ l ∧ "askForConfirmation" ∈ l :=
  orchestrator_empty_string_signal ["analyzeBundles"] ⟨8, 8, 16⟩ (by decide)

/-- C10: the execute operations of the presentation tools never propagate
an exception of their external calls: whichever call throws — the verify
action, the username check, the notification send (with the check having
resolved), or the bundle analysis — the operation returns a record with
`success = false` and an error message present. -/
theorem tool_execute_catches_exceptions (α : Type) (e : JsException)
    (username userId : Option String) (message mintAddress : String)
    (check : UsernameCheckResult)
    (send : Except JsException (Option SendResponse)) :
    ((verifyTelegramSetupExecute username (Except.error e)).success = false ∧
      (verifyTelegramSetupExecute username
        (Except.error e)).error.isSome = true) ∧
    ((sendTelegramNotificationExecute userId username message (Except.error e)
        send).success = false ∧
      (sendTelegramNotificationExecute userId username message (Except.error e)
        send).error.isSome = true) ∧
    ((sendTelegramNotificationExecute userId username message (Except.ok check)
        (Except.error e)).success = false ∧
      (sendTelegramNotificationExecute userId username message (Except.ok check)
        (Except.error e)).error.isSome = true) ∧
    ((@analyzeBundlesExecute α mintAddress (Except.error e)).success = false ∧
      (@analyzeBundlesExecute α mintAddress
        (Except.error e)).error.isSome = true) := by
  refine ⟨⟨rfl, rfl⟩, ⟨rfl, rfl⟩, ?_, ⟨rfl, rfl⟩⟩
  simp only [sendTelegramNotificationExecute]
  split <;> exact ⟨rfl, rfl⟩
